import Mathlib

/-!
Verification development for the printer-server repository.

The definitions below are a shallow embedding of the dispatch engine in
src/printer.js and src/index.js:

* kitchen keys (`kitchen_number`, which is null/undefined for unassigned
  items) are `Option Int` (`none` = the JS null/undefined "unassigned" key);
* JS numbers used for money are embedded as rationals (the amounts handled
  by the program are small decimal values);
* the ESC/POS byte stream is a `List Nat` of byte values;
* the external world (database fetches, the Windows print spooler) is
  passed in as explicit parameters (for example a per-kitchen send outcome).
-/

namespace PrinterServer

/-- A kitchen key: `some n` for kitchen `n`, `none` for the JS
null/undefined "unassigned" key (`i.kitchen_number ?? null`). -/
abbrev Key := Option Int

/-- One row of `order_items` (the fields read by src/printer.js). -/
structure Item where
  item_name : String
  quantity : Nat
  item_price : ℚ
  kitchen_number : Key
deriving DecidableEq, Repr

/-- The comparator of `getUniqueKitchens` (src/printer.js lines 173-178)
as a relation: numbered kitchens ascending, null sorted to the end. -/
def keyLE : Key → Key → Prop
  | _, none => True
  | none, some _ => False
  | some a, some b => a ≤ b

instance : DecidableRel keyLE := fun a b =>
  match a, b with
  | none, none => isTrue trivial
  | some _, none => isTrue trivial
  | none, some _ => isFalse fun h => h
  | some x, some y => inferInstanceAs (Decidable (x ≤ y))

instance : IsTotal Key keyLE where
  total a b := by
    cases a <;> cases b <;> simp [keyLE]
    exact le_total _ _

instance : IsTrans Key keyLE where
  trans a b c hab hbc := by
    cases a <;> cases b <;> cases c <;> simp_all [keyLE]
    exact le_trans hab hbc

instance : IsAntisymm Key keyLE where
  antisymm a b hab hba := by
    cases a <;> cases b <;> simp_all [keyLE]
    exact le_antisymm hab hba

/-- Strict version of the kitchen-key order: numbered kitchens strictly
ascending, and nothing may follow the null ("unassigned") key. -/
def keyLT : Key → Key → Prop
  | some a, some b => a < b
  | some _, none => True
  | none, _ => False

/-- `getUniqueKitchens` (src/printer.js lines 170-179): the distinct
`kitchen_number ?? null` values, sorted with the comparator above.

The source first collects the keys into a JS `Set` (dedup in first-seen
order) and then sorts; since the comparator is a total antisymmetric
order and the deduplicated list has no duplicates, the sorted result does
not depend on the intermediate order, so `List.dedup` followed by a
correct sort yields exactly the array the source returns. -/
def getUniqueKitchens (items : List Item) : List Key :=
  ((items.map fun i => i.kitchen_number).dedup).insertionSort keyLE

/-- The per-kitchen item filter of `printKitchenSlip`
(src/printer.js lines 196-200): for the null key, items whose
`kitchen_number` is null or undefined; otherwise strict equality. -/
def kitchenFilter (kitchenNumber : Key) (items : List Item) : List Item :=
  items.filter fun i =>
    match kitchenNumber with
    | none => i.kitchen_number == none
    | some n => i.kitchen_number == some n

theorem kitchenFilter_eq_filter (k : Key) (items : List Item) :
    kitchenFilter k items = items.filter fun i => i.kitchen_number == k := by
  cases k <;> rfl

theorem flatMap_congr_mem {α β : Type} {l : List α} {f g : α → List β}
    (h : ∀ a ∈ l, f a = g a) : l.flatMap f = l.flatMap g := by
  induction l with
  | nil => rfl
  | cons x xs ih =>
    simp only [List.flatMap_cons]
    rw [h x (List.mem_cons_self x xs), ih fun a ha => h a (List.mem_cons_of_mem x ha)]

/-- Partitioning a list by the fibers of `f` over a duplicate-free list of
keys covering every element yields a permutation of the list. -/
theorem flatMap_filter_key_perm {α β : Type} [BEq β] [LawfulBEq β] (f : α → β)
    (ks : List β) (hnd : ks.Nodup) (l : List α) (h : ∀ x ∈ l, f x ∈ ks) :
    List.Perm (ks.flatMap fun k => l.filter fun x => f x == k) l := by
  induction ks generalizing l with
  | nil =>
    cases l with
    | nil => simp
    | cons x xs => exact absurd (h x (List.mem_cons_self x xs)) (List.not_mem_nil _)
  | cons k ks ih =>
    rw [List.flatMap_cons]
    obtain ⟨hk, hnd'⟩ := List.nodup_cons.mp hnd
    have hcongr : ∀ k' ∈ ks, (l.filter fun x => f x == k') =
        ((l.filter fun x => !(f x == k)).filter fun x => f x == k') := by
      intro k' hk'
      rw [List.filter_filter]
      apply List.filter_congr
      intro x _
      by_cases hfx : f x = k'
      · have hne : f x ≠ k := fun hc => hk (hc ▸ hfx ▸ hk')
        have hne' : k' ≠ k := fun hc => hne (by rw [hfx, hc])
        simp [hfx, hne']
      · simp [hfx]
    rw [flatMap_congr_mem hcongr]
    have hmem' : ∀ x ∈ (l.filter fun x => !(f x == k)), f x ∈ ks := by
      intro x hx
      rw [List.mem_filter] at hx
      obtain ⟨hxl, hxk⟩ := hx
      have hne : f x ≠ k := by simpa using hxk
      rcases List.mem_cons.mp (h x hxl) with h1 | h1
      · exact absurd h1 hne
      · exact h1
    exact ((ih hnd' _ hmem').append_left _).trans (List.filter_append_perm _ l)

theorem nodup_getUniqueKitchens (items : List Item) :
    (getUniqueKitchens items).Nodup :=
  ((List.perm_insertionSort _ _).nodup_iff).mpr (List.nodup_dedup _)

theorem mem_getUniqueKitchens (items : List Item) (k : Key) :
    k ∈ getUniqueKitchens items ↔ ∃ i ∈ items, i.kitchen_number = k := by
  simp [getUniqueKitchens, List.mem_dedup]

theorem keyLT_of_keyLE_ne {a b : Key} (hle : keyLE a b) (hne : a ≠ b) :
    keyLT a b := by
  cases a <;> cases b <;> simp_all [keyLE, keyLT]
  exact lt_of_le_of_ne hle hne

/-- C1 (partition coverage): every item lands in the partition carrying its
own kitchen key (with null mapped to the unassigned key), that key is among
the enumerated kitchens, no other partition contains it, and the
concatenation of all partitions is a permutation of the input list (each
item appears exactly once overall). -/
theorem getUniqueKitchens_partition_coverage (items : List Item) :
    (∀ i ∈ items,
        i ∈ kitchenFilter i.kitchen_number items ∧
        i.kitchen_number ∈ getUniqueKitchens items ∧
        ∀ k, i ∈ kitchenFilter k items → k = i.kitchen_number) ∧
    List.Perm ((getUniqueKitchens items).flatMap fun k => kitchenFilter k items)
      items := by
  constructor
  · intro i hi
    refine ⟨?_, ?_, ?_⟩
    · rw [kitchenFilter_eq_filter, List.mem_filter]
      exact ⟨hi, by simp⟩
    · exact (mem_getUniqueKitchens items _).mpr ⟨i, hi, rfl⟩
    · intro k hk
      rw [kitchenFilter_eq_filter, List.mem_filter] at hk
      have := hk.2
      simp only [beq_iff_eq] at this
      exact this.symm
  · have hmem : ∀ x ∈ items, x.kitchen_number ∈ getUniqueKitchens items :=
      fun x hx => (mem_getUniqueKitchens items _).mpr ⟨x, hx, rfl⟩
    have hperm := flatMap_filter_key_perm (fun i : Item => i.kitchen_number)
      (getUniqueKitchens items) (nodup_getUniqueKitchens items) items hmem
    rw [show (fun k => kitchenFilter k items) =
        fun k => items.filter fun i => i.kitchen_number == k from
      funext fun k => kitchenFilter_eq_filter k items]
    exact hperm

/-- C1 witness: a sample item is a member of its own partition. -/
theorem getUniqueKitchens_partition_coverage_witness :
    (Item.mk "Roti" 3 15 (some 2)) ∈
        [Item.mk "Veg Biryani" 2 120 (some 1), Item.mk "Roti" 3 15 (some 2)] ∧
      (Item.mk "Roti" 3 15 (some 2)) ∈
        kitchenFilter (some 2)
          [Item.mk "Veg Biryani" 2 120 (some 1), Item.mk "Roti" 3 15 (some 2)] :=
  ⟨by decide,
    ((getUniqueKitchens_partition_coverage
      [Item.mk "Veg Biryani" 2 120 (some 1), Item.mk "Roti" 3 15 (some 2)]).1
      (Item.mk "Roti" 3 15 (some 2)) (by decide)).1⟩

/-- C2 (partition ordering): the enumerated kitchen keys are strictly
ascending with the unassigned (null) key last, their membership is exactly
the keys occurring in the input, and the enumeration is invariant under
permutation of the input item list. -/
theorem getUniqueKitchens_sorted (items : List Item) :
    List.Pairwise keyLT (getUniqueKitchens items) ∧
    (∀ k, k ∈ getUniqueKitchens items ↔ ∃ i ∈ items, i.kitchen_number = k) ∧
    ∀ items' : List Item, List.Perm items items' →
      getUniqueKitchens items = getUniqueKitchens items' := by
  refine ⟨?_, mem_getUniqueKitchens items, ?_⟩
  · have hs : List.Pairwise keyLE (getUniqueKitchens items) :=
      List.sorted_insertionSort keyLE _
    have hn : List.Pairwise (fun a b : Key => a ≠ b) (getUniqueKitchens items) :=
      nodup_getUniqueKitchens items
    exact (hs.and hn).imp fun h => keyLT_of_keyLE_ne h.1 h.2
  · intro items' hperm
    apply List.eq_of_perm_of_sorted _
      (List.sorted_insertionSort keyLE _) (List.sorted_insertionSort keyLE _)
    exact (List.perm_insertionSort keyLE _).trans
      (((hperm.map _).dedup).trans (List.perm_insertionSort keyLE _).symm)

/-- C2 witness: two orderings of the same items give the same sorted
kitchen list. -/
theorem getUniqueKitchens_sorted_witness :
    getUniqueKitchens
        [Item.mk "A" 1 10 none, Item.mk "B" 1 10 (some 2), Item.mk "C" 1 10 (some 1)] =
      getUniqueKitchens
        [Item.mk "C" 1 10 (some 1), Item.mk "A" 1 10 none, Item.mk "B" 1 10 (some 2)] :=
  (getUniqueKitchens_sorted
    [Item.mk "A" 1 10 none, Item.mk "B" 1 10 (some 2), Item.mk "C" 1 10 (some 1)]).2.2
    [Item.mk "C" 1 10 (some 1), Item.mk "A" 1 10 none, Item.mk "B" 1 10 (some 2)]
    (by decide)

/-! ### ESC/POS command constants (src/printer.js lines 13-32) -/

def ESC : Nat := 0x1B
def GS : Nat := 0x1D
def LF : Nat := 0x0A

def CMD_INIT : List Nat := [ESC, 0x40]
def CMD_ALIGN_LEFT : List Nat := [ESC, 0x61, 0x00]
def CMD_ALIGN_CENTER : List Nat := [ESC, 0x61, 0x01]
def CMD_ALIGN_RIGHT : List Nat := [ESC, 0x61, 0x02]
def CMD_BOLD_ON : List Nat := [ESC, 0x45, 0x01]
def CMD_BOLD_OFF : List Nat := [ESC, 0x45, 0x00]
def CMD_NORMAL_SIZE : List Nat := [GS, 0x21, 0x00]
def CMD_CUT_PARTIAL : List Nat := [GS, 0x56, 0x41, 0x00]
def CMD_CASH_DRAWER : List Nat := [ESC, 0x70, 0x00, 0x19, 0xFA]

/-- `EscPos._text` (src/printer.js lines 42-47): each UTF-16 code unit is
masked to one byte (`charCodeAt(i) & 0xFF`); all strings the builder emits
stay in the basic plane, where the code unit is the code point. -/
def escText (s : String) : List Nat := s.data.map fun c => c.toNat % 256

/-- `EscPos.println` (lines 63-67): text followed by one line feed. -/
def escPrintln (s : String) : List Nat := escText s ++ [LF]

/-- `EscPos.feed(n)` (line 58): `n` line-feed bytes. -/
def feedBytes (n : Nat) : List Nat := List.replicate n LF

def spacesStr (n : Nat) : String := String.mk (List.replicate n ' ')

/-- `EscPos.drawLine` (lines 69-71): the character repeated `width` times,
printed as one line. -/
def drawLineBytes (c : Char) (width : Nat) : List Nat :=
  escPrintln (String.mk (List.replicate width c))

/-- `EscPos.leftRight` (lines 73-79): left text, at least one space,
right text padded to `width` total characters. JS computes
`Math.max(1, width - l.length - r.length)`; truncated natural subtraction
followed by `max 1` agrees with it (a negative JS difference and a
truncated-to-zero difference both give 1). -/
def leftRight (left right : String) (width : Nat) : List Nat :=
  escPrintln (left ++ spacesStr (max 1 (width - left.length - right.length)) ++ right)

inductive Align | left | right | center
deriving DecidableEq, Repr

/-- `col` (src/printer.js lines 100-108): truncate to `width`, then pad
with spaces according to the alignment; centering puts the floor half of
the padding on the left. -/
def col (text : String) (width : Nat) (align : Align) : String :=
  let str := text.take width
  match align with
  | .right => spacesStr (width - str.length) ++ str
  | .center =>
      let pad := (width - str.length) / 2
      spacesStr pad ++ str ++ spacesStr (width - pad - str.length)
  | .left => str ++ spacesStr (width - str.length)

/-- Two-digit zero padding, as `String(n).padStart(2, '0')`. -/
def padZero2 (s : String) : String :=
  if s.length < 2 then String.mk (List.replicate (2 - s.length) '0') ++ s else s

/-- The local-time components that `formatDateTime` (src/printer.js lines
88-98) reads off the parsed `Date`; parsing and time zone belong to the
JS runtime, so the embedding starts from the getter outputs
(`getDate`, `getMonth`, `getFullYear`, `getHours`, `getMinutes`). -/
structure DateParts where
  day : Nat
  month0 : Nat
  year : Nat
  hours : Nat
  minutes : Nat
deriving DecidableEq, Repr

/-- `formatDateTime` (lines 88-98): `DD-MM-YYYY hh:mm AM/PM` with a
12-hour clock (`hours % 12 || 12`). -/
def formatDateTime (d : DateParts) : String :=
  let day := padZero2 (toString d.day)
  let month := padZero2 (toString (d.month0 + 1))
  let year := toString d.year
  let ampm := if d.hours ≥ 12 then "PM" else "AM"
  let h12raw := d.hours % 12
  let h12 := padZero2 (toString (if h12raw = 0 then 12 else h12raw))
  let mins := padZero2 (toString d.minutes)
  day ++ "-" ++ month ++ "-" ++ year ++ " " ++ h12 ++ ":" ++ mins ++ " " ++ ampm

/-- JS `Number.prototype.toFixed(2)` on the decimal amounts the program
handles: round to two decimals (half away from zero) and render with
exactly two fraction digits. -/
def toFixed2 (q : ℚ) : String :=
  if q < 0 then
    let m := (Int.floor (-q * 100 + 1/2)).toNat
    "-" ++ toString (m / 100) ++ "." ++ padZero2 (toString (m % 100))
  else
    let m := (Int.floor (q * 100 + 1/2)).toNat
    toString (m / 100) ++ "." ++ padZero2 (toString (m % 100))

/-- An order row, with the fields src/printer.js and src/index.js read.
Optional fields are null/undefined-able columns; `created_at` is carried
as the parsed local-time parts. -/
structure Order where
  order_number : Nat
  table_number : Option Nat
  order_type : String
  payment_method : String
  payment_status : String
  customer_name : Option String
  customer_phone : Option String
  created_at : DateParts
deriving DecidableEq, Repr

/-- JS truthiness of an optional numeric column (0, null and undefined
are falsy). -/
def truthyNat : Option Nat → Bool
  | some n => n != 0
  | none => false

/-- JS truthiness of an optional text column (the empty string, null and
undefined are falsy). -/
def truthyStr : Option String → Bool
  | some s => s != ""
  | none => false

/-- `items.reduce((sum, i) => sum + (i.item_price * i.quantity), 0)`
(src/printer.js line 307; the same shape accumulates the per-kitchen
subtotal at lines 272-276). -/
def orderSubtotal (items : List Item) : ℚ :=
  items.foldl (fun sum i => sum + i.item_price * (i.quantity : ℚ)) 0

/-- `allSubtotal * 0.02` (line 308). -/
def serviceCharge (items : List Item) : ℚ := orderSubtotal items * (2 / 100)

/-- `allSubtotal + serviceCharge` (line 309). -/
def grandTotal (items : List Item) : ℚ := orderSubtotal items + serviceCharge items

/-- `${kitchenNumber ?? 'Unassigned'}` (line 300). -/
def kitchenLabel : Key → String
  | some n => toString n
  | none => "Unassigned"

/-- One line-item row plus its overflow continuation line
(src/printer.js lines 274-293). -/
def itemRow (i : Item) : List Nat :=
  let extPrice := i.item_price * (i.quantity : ℚ)
  CMD_BOLD_ON
    ++ escPrintln
      (col (if i.item_name == "" then "Item" else i.item_name) 21 .left
        ++ col (toString i.quantity) 7 .right
        ++ col (toFixed2 i.item_price) 10 .right
        ++ col (toFixed2 extPrice) 10 .right)
    ++ CMD_BOLD_OFF
    ++ (if i.item_name.length > 21 then
          CMD_BOLD_ON ++ escPrintln ("  " ++ i.item_name.drop 21) ++ CMD_BOLD_OFF
        else [])

/-- The document `printKitchenSlip` builds before the cut
(src/printer.js lines 207-330), encoded to bytes in emission order. -/
def buildSlipBody (order : Order) (items : List Item) (kitchenNumber : Key)
    (kitchenIndex totalKitchens : Nat) : List Nat :=
  let kitchenItems := kitchenFilter kitchenNumber items
  CMD_INIT
    ++ CMD_ALIGN_LEFT ++ CMD_NORMAL_SIZE
    ++ leftRight (formatDateTime order.created_at)
        ("Receipt #" ++ toString order.order_number) 48
    ++ escPrintln "Store: 1"
    ++ feedBytes 1
    ++ CMD_ALIGN_CENTER
    ++ CMD_BOLD_ON ++ escPrintln "ASTHA HJB Canteen" ++ CMD_BOLD_OFF
    ++ escPrintln "HJB Hall, IIT Kharagpur"
    ++ escPrintln "West Bengal"
    ++ escPrintln "+91-9333190224"
    ++ feedBytes 1
    ++ CMD_ALIGN_LEFT ++ drawLineBytes '─' 48
    ++ CMD_ALIGN_CENTER ++ CMD_BOLD_ON
    ++ (match kitchenNumber with
        | some n => escPrintln ("KITCHEN " ++ toString n)
        | none => escPrintln "KITCHEN (UNASSIGNED)")
    ++ (if totalKitchens > 1 then
          escPrintln ("Slip " ++ toString kitchenIndex ++ " of " ++ toString totalKitchens)
        else [])
    ++ CMD_BOLD_OFF
    ++ CMD_ALIGN_LEFT ++ drawLineBytes '─' 48
    ++ feedBytes 1
    ++ (if (order.order_type != "delivery") && truthyNat order.table_number then
          CMD_ALIGN_CENTER ++ CMD_BOLD_ON
            ++ escPrintln ("TABLE " ++ toString (order.table_number.getD 0))
            ++ CMD_BOLD_OFF ++ feedBytes 1
        else [])
    ++ CMD_ALIGN_LEFT
    ++ (if truthyStr order.customer_name then
          leftRight "Customer:" (order.customer_name.getD "") 48
        else [])
    ++ (if truthyStr order.customer_phone then
          leftRight "Phone:" (order.customer_phone.getD "") 48
        else [])
    ++ (if truthyStr order.customer_name || truthyStr order.customer_phone then
          feedBytes 1
        else [])
    ++ CMD_ALIGN_LEFT
    ++ CMD_BOLD_ON
    ++ escPrintln
        (col "Item Name" 21 .left ++ col "Qty" 7 .right
          ++ col "Price" 10 .right ++ col "Total" 10 .right)
    ++ CMD_BOLD_OFF
    ++ drawLineBytes '─' 48
    ++ (kitchenItems.map itemRow).flatten
    ++ feedBytes 1
    ++ (if totalKitchens > 1 then
          CMD_ALIGN_LEFT ++ drawLineBytes '-' 48
            ++ leftRight ("Kitchen " ++ kitchenLabel kitchenNumber ++ " subtotal:")
                (toFixed2 (orderSubtotal kitchenItems)) 48
            ++ feedBytes 1
        else [])
    ++ CMD_ALIGN_LEFT ++ drawLineBytes '─' 48
    ++ leftRight "Order Subtotal:" (toFixed2 (orderSubtotal items)) 48
    ++ leftRight "Service Charges (2%):" (toFixed2 (serviceCharge items)) 48
    ++ CMD_BOLD_ON
    ++ leftRight ((if order.payment_method == "cash" then "Cash" else "Online")
          ++ " (Total):") (toFixed2 (grandTotal items)) 48
    ++ CMD_BOLD_OFF
    ++ feedBytes 1
    ++ CMD_ALIGN_LEFT ++ drawLineBytes '─' 48
    ++ CMD_ALIGN_CENTER ++ feedBytes 1
    ++ escPrintln "Thanks for dining with us!"
    ++ feedBytes 1
    ++ (if order.order_type == "delivery" then
          CMD_BOLD_ON ++ escPrintln "DELIVERY ORDER" ++ CMD_BOLD_OFF
        else [])
    ++ feedBytes 3

/-- The full encoded slip (src/printer.js lines 332-337 append the
partial cut, then the drawer pulse iff `openDrawer`). -/
def buildSlip (order : Order) (items : List Item) (kitchenNumber : Key)
    (kitchenIndex totalKitchens : Nat) (openDrawer : Bool) : List Nat :=
  buildSlipBody order items kitchenNumber kitchenIndex totalKitchens
    ++ CMD_CUT_PARTIAL
    ++ (if openDrawer then CMD_CASH_DRAWER else [])

/-- `printKitchenSlip` (src/printer.js lines 193-347). `sendOk` is the
outcome of the external `sendToPrinter` call. The result is the returned
Boolean paired with the bytes handed to the device (`none` when the
kitchen has no items and the slip is skipped before building anything). -/
def printKitchenSlip (sendOk : Bool) (order : Order) (items : List Item)
    (kitchenNumber : Key) (kitchenIndex totalKitchens : Nat)
    (openDrawer : Bool) : Bool × Option (List Nat) :=
  let kitchenItems := kitchenFilter kitchenNumber items
  if kitchenItems.isEmpty then (true, none)
  else
    (sendOk,
      some (buildSlip order items kitchenNumber kitchenIndex totalKitchens openDrawer))

/-- The per-slip drawer decision of `printOrder`
(src/printer.js lines 371-375). -/
def openDrawerFlag (cfgDrawer : Bool) (paymentMethod : String)
    (kitchenIndex : Nat) : Bool :=
  cfgDrawer && (paymentMethod == "cash") && (kitchenIndex == 1)

/-- The slip loop of `printOrder` (src/printer.js lines 364-399):
`kitchenIndex` is 1-based, `acc` is the running `allSuccess` flag; the
result is the final flag and, per kitchen in order, the slip outcome. -/
def printOrderGo (sendOk : Key → Bool) (cfgDrawer : Bool) (order : Order)
    (items : List Item) (total : Nat) :
    List Key → Nat → Bool → Bool × List (Key × Bool)
  | [], _, acc => (acc, [])
  | k :: rest, i, acc =>
    let od := openDrawerFlag cfgDrawer order.payment_method i
    let s := (printKitchenSlip (sendOk k) order items k i total od).1
    let r := printOrderGo sendOk cfgDrawer order items total rest (i + 1) (acc && s)
    (r.1, (k, s) :: r.2)

/-- `printOrder` (src/printer.js lines 357-402): overall success flag,
the kitchen list, and the per-kitchen attempts in print order. `sendOk`
is the external device outcome per kitchen. -/
def printOrder (sendOk : Key → Bool) (cfgDrawer : Bool) (order : Order)
    (items : List Item) : Bool × List Key × List (Key × Bool) :=
  let kitchens := getUniqueKitchens items
  let r := printOrderGo sendOk cfgDrawer order items kitchens.length kitchens 1 true
  (r.1, kitchens, r.2)

/-! ### src/index.js: trigger qualification and the dedup ledger -/

/-- `shouldPrint` (src/index.js lines 86-88):
`record?.payment_status === config.printOnPaymentStatus`. -/
def shouldPrint (trigger : String) (record : Option Order) : Bool :=
  match record with
  | some r => r.payment_status == trigger
  | none => false

/-- The UPDATE-event filter of `startRealtimeListener`
(src/index.js lines 257-268): dispatch iff the new row qualifies and the
old row was not already at the trigger value. -/
def updateEventTriggers (trigger : String) (oldRec newRec : Option Order) : Bool :=
  let wasAlreadyPaid :=
    match oldRec with
    | some r => r.payment_status == trigger
    | none => false
  let isNowPaid := shouldPrint trigger newRec
  !wasAlreadyPaid && isNowPaid

/-- One `handlePaidOrder` call (src/index.js lines 91-149), restricted to
the state it reads and writes: the `printedOrders` ledger (a JS `Set`,
whose iteration order is insertion order — here the id list oldest
first). `dispatchSuccess` abstracts the overall outcome of the
`printOrder` call. Returns the new ledger and whether a dispatch attempt
was performed. A ledger hit takes the early `return` at line 98, so the
trim code at lines 140-143 does not run on that path; on the dispatch
path the id is appended only on full success (line 133) and then the
set is trimmed by dropping the oldest entry once it exceeds 200. -/
def handlePaidOrder (ledger : List Nat) (orderId : Nat)
    (dispatchSuccess : Bool) : List Nat × Bool :=
  if orderId ∈ ledger then (ledger, false)
  else
    let l1 := if dispatchSuccess then ledger ++ [orderId] else ledger
    let l2 := if l1.length > 200 then l1.tail else l1
    (l2, true)

theorem handlePaidOrder_skip (ledger : List Nat) (orderId : Nat) (s : Bool)
    (h : orderId ∈ ledger) : handlePaidOrder ledger orderId s = (ledger, false) := by
  simp [handlePaidOrder, h]

theorem handlePaidOrder_fail (ledger : List Nat) (orderId : Nat)
    (h : orderId ∉ ledger) :
    handlePaidOrder ledger orderId false =
      (if 200 < ledger.length then ledger.tail else ledger, true) := by
  simp [handlePaidOrder, h]

theorem handlePaidOrder_success (ledger : List Nat) (orderId : Nat)
    (h : orderId ∉ ledger) :
    handlePaidOrder ledger orderId true =
      (if 200 < ledger.length + 1 then (ledger ++ [orderId]).tail
        else ledger ++ [orderId], true) := by
  simp [handlePaidOrder, h]

/-- C3 (retry-safety of the dedup ledger): for an order id not yet in the
ledger, a fully failed or partially failed dispatch leaves the ledger
unchanged while still having performed a dispatch attempt; a fully
successful dispatch puts the id into the ledger; and any later call for
an id already in the ledger is skipped (no dispatch) and leaves the
ledger unchanged. -/
theorem handlePaidOrder_retry_safety (ledger : List Nat) (orderId : Nat)
    (hnew : orderId ∉ ledger) (hcap : ledger.length ≤ 200) :
    handlePaidOrder ledger orderId false = (ledger, true) ∧
    orderId ∈ (handlePaidOrder ledger orderId true).1 ∧
    ∀ s, handlePaidOrder (handlePaidOrder ledger orderId true).1 orderId s =
      ((handlePaidOrder ledger orderId true).1, false) := by
  have hnot200 : ¬ 200 < ledger.length := by omega
  have hmem : orderId ∈ (handlePaidOrder ledger orderId true).1 := by
    rw [handlePaidOrder_success ledger orderId hnew]
    by_cases hl : 200 < ledger.length + 1
    · rw [if_pos hl]
      cases ledger with
      | nil => simp at hl
      | cons a as => simp
    · rw [if_neg hl]
      simp
  refine ⟨by rw [handlePaidOrder_fail ledger orderId hnew, if_neg hnot200],
    hmem, fun s => handlePaidOrder_skip _ orderId s hmem⟩

/-- C3 witness at a concrete ledger. -/
theorem handlePaidOrder_retry_safety_witness :
    (5 ∉ [1, 2, 3]) ∧ ([1, 2, 3] : List Nat).length ≤ 200 ∧
    handlePaidOrder [1, 2, 3] 5 false = ([1, 2, 3], true) ∧
    5 ∈ (handlePaidOrder [1, 2, 3] 5 true).1 :=
  ⟨by decide, by decide,
    (handlePaidOrder_retry_safety [1, 2, 3] 5 (by decide) (by decide)).1,
    (handlePaidOrder_retry_safety [1, 2, 3] 5 (by decide) (by decide)).2.1⟩

/-- C5 (ledger bound and FIFO eviction): a handle call never leaves more
than 200 ids in the ledger, and when a successful dispatch would push a
full ledger (200 entries) past its capacity, the entry evicted is the
oldest-inserted one (the head of the insertion-ordered list). -/
theorem handlePaidOrder_capacity (ledger : List Nat) (orderId : Nat) (s : Bool)
    (hcap : ledger.length ≤ 200) :
    (handlePaidOrder ledger orderId s).1.length ≤ 200 ∧
    (ledger.length = 200 → orderId ∉ ledger → s = true →
      ∃ oldest rest, ledger = oldest :: rest ∧
        (handlePaidOrder ledger orderId s).1 = rest ++ [orderId]) := by
  constructor
  · by_cases hm : orderId ∈ ledger
    · rw [handlePaidOrder_skip ledger orderId s hm]
      exact hcap
    · cases s with
      | false =>
        rw [handlePaidOrder_fail ledger orderId hm, if_neg (by omega)]
        exact hcap
      | true =>
        rw [handlePaidOrder_success ledger orderId hm]
        by_cases hl : 200 < ledger.length + 1
        · rw [if_pos hl]
          simp only [List.length_tail, List.length_append, List.length_cons,
            List.length_nil]
          omega
        · rw [if_neg hl]
          simp only [List.length_append, List.length_cons, List.length_nil]
          omega
  · intro h200 hm hs
    subst hs
    cases ledger with
    | nil => simp at h200
    | cons a as =>
      refine ⟨a, as, rfl, ?_⟩
      rw [handlePaidOrder_success (a :: as) orderId hm, if_pos (by omega)]
      simp

/-- C5 witness: inserting into a full 200-entry ledger evicts its head. -/
theorem handlePaidOrder_capacity_witness :
    (List.range 200).length ≤ 200 ∧
    (handlePaidOrder (List.range 200) 500 true).1.length ≤ 200 ∧
    ∃ oldest rest, List.range 200 = oldest :: rest ∧
      (handlePaidOrder (List.range 200) 500 true).1 = rest ++ [500] :=
  ⟨by simp,
    (handlePaidOrder_capacity (List.range 200) 500 true (by simp)).1,
    (handlePaidOrder_capacity (List.range 200) 500 true (by simp)).2
      (by simp) (by simp) rfl⟩

/-- An order row that differs only in `payment_status`, for concrete
trigger scenarios. -/
def statusOrder (ps : String) : Order :=
  { order_number := 1, table_number := none, order_type := "dine_in",
    payment_method := "cash", payment_status := ps,
    customer_name := none, customer_phone := none,
    created_at := ⟨1, 0, 2025, 12, 0⟩ }

/-- C6 (update-event trigger qualification): an update record triggers a
dispatch iff the new payment status equals the trigger value and the old
one did not; in particular pending→paid qualifies under trigger "paid"
and paid→paid does not. -/
theorem updateEventTriggers_iff (trigger : String) (oldRec newRec : Option Order) :
    (updateEventTriggers trigger oldRec newRec = true ↔
      (∃ r, newRec = some r ∧ r.payment_status = trigger) ∧
        ¬ ∃ r, oldRec = some r ∧ r.payment_status = trigger) ∧
    updateEventTriggers "paid" (some (statusOrder "pending"))
      (some (statusOrder "paid")) = true ∧
    updateEventTriggers "paid" (some (statusOrder "paid"))
      (some (statusOrder "paid")) = false := by
  refine ⟨?_, by decide, by decide⟩
  cases oldRec <;> cases newRec <;>
    simp [updateEventTriggers, shouldPrint, and_comm]

/-! ### Dispatch loop, drawer, totals, determinism -/

theorem printKitchenSlip_fst (sendOk : Bool) (order : Order) (items : List Item)
    (k : Key) (i n : Nat) (d : Bool) :
    (printKitchenSlip sendOk order items k i n d).1 =
      if (kitchenFilter k items).isEmpty then true else sendOk := by
  by_cases h : (kitchenFilter k items).isEmpty <;> simp [printKitchenSlip, h]

theorem kitchenFilter_not_empty_of_mem (items : List Item) (k : Key)
    (hk : k ∈ getUniqueKitchens items) :
    (kitchenFilter k items).isEmpty = false := by
  obtain ⟨i, hi, hik⟩ := (mem_getUniqueKitchens items k).mp hk
  have hmem : i ∈ kitchenFilter k items := by
    rw [kitchenFilter_eq_filter, List.mem_filter]
    exact ⟨hi, by simp [hik]⟩
  cases hfe : kitchenFilter k items with
  | nil => rw [hfe] at hmem; exact absurd hmem (List.not_mem_nil i)
  | cons a l => rfl

theorem printOrderGo_spec (sendOk : Key → Bool) (cfgDrawer : Bool)
    (order : Order) (items : List Item) (total : Nat) (ks : List Key)
    (hne : ∀ k ∈ ks, (kitchenFilter k items).isEmpty = false) :
    ∀ (i : Nat) (acc : Bool),
      printOrderGo sendOk cfgDrawer order items total ks i acc =
        (acc && ks.all fun k => sendOk k, ks.map fun k => (k, sendOk k)) := by
  induction ks with
  | nil => intro i acc; simp [printOrderGo]
  | cons k rest ih =>
    intro i acc
    have hk := hne k (List.mem_cons_self k rest)
    have hrest : ∀ k' ∈ rest, (kitchenFilter k' items).isEmpty = false :=
      fun k' h => hne k' (List.mem_cons_of_mem k h)
    simp [printOrderGo, printKitchenSlip_fst, hk, ih hrest, Bool.and_assoc]

/-- C4 (per-partition failure isolation and overall success): `printOrder`
attempts every enumerated kitchen exactly once, in enumeration order,
regardless of which sends fail, and its success flag is true iff the send
of every attempted kitchen succeeded. -/
theorem printOrder_failure_isolation (sendOk : Key → Bool) (cfgDrawer : Bool)
    (order : Order) (items : List Item) :
    (printOrder sendOk cfgDrawer order items).2.2 =
      (getUniqueKitchens items).map (fun k => (k, sendOk k)) ∧
    ((printOrder sendOk cfgDrawer order items).1 = true ↔
      ∀ k ∈ getUniqueKitchens items, sendOk k = true) := by
  have hne : ∀ k ∈ getUniqueKitchens items, (kitchenFilter k items).isEmpty = false :=
    fun k hk => kitchenFilter_not_empty_of_mem items k hk
  have hspec := printOrderGo_spec sendOk cfgDrawer order items
    (getUniqueKitchens items).length (getUniqueKitchens items) hne 1 true
  constructor
  · simp [printOrder, hspec]
  · simp [printOrder, hspec, List.all_eq_true]

/-- C10 (empty-partition edge case): a `printKitchenSlip` call whose
kitchen key matches no item returns success without handing any bytes to
the device. -/
theorem printKitchenSlip_empty_partition (sendOk : Bool) (order : Order)
    (items : List Item) (k : Key) (i n : Nat) (d : Bool)
    (h : kitchenFilter k items = []) :
    printKitchenSlip sendOk order items k i n d = (true, none) := by
  simp [printKitchenSlip, h]

/-- A concrete order for witnesses. -/
def sampleOrder : Order :=
  { order_number := 101, table_number := some 5, order_type := "dine_in",
    payment_method := "cash", payment_status := "paid",
    customer_name := none, customer_phone := none,
    created_at := ⟨7, 9, 2025, 13, 30⟩ }

/-- Concrete items for witnesses (kitchens 1 and 2 only). -/
def sampleItems : List Item :=
  [Item.mk "Veg Biryani" 2 120 (some 1), Item.mk "Roti" 3 15 (some 2)]

/-- C10 witness: kitchen 5 matches no sample item, and the slip call for
it reports success with nothing sent, even with a failing device. -/
theorem printKitchenSlip_empty_partition_witness :
    kitchenFilter (some 5) sampleItems = [] ∧
    printKitchenSlip false sampleOrder sampleItems (some 5) 1 1 false =
      (true, none) :=
  ⟨by decide,
    printKitchenSlip_empty_partition false sampleOrder sampleItems
      (some 5) 1 1 false (by decide)⟩

/-- C9 (deterministic slip building): the slip build-and-encode pipeline
is a pure function of the order, item set, kitchen key, slip index,
total-slips count and drawer flag — identical inputs give byte-identical
encoded output. -/
theorem buildSlip_deterministic (o₁ o₂ : Order) (items₁ items₂ : List Item)
    (k₁ k₂ : Key) (i₁ i₂ n₁ n₂ : Nat) (d₁ d₂ : Bool)
    (ho : o₁ = o₂) (hi : items₁ = items₂) (hk : k₁ = k₂) (hidx : i₁ = i₂)
    (hn : n₁ = n₂) (hd : d₁ = d₂) :
    buildSlip o₁ items₁ k₁ i₁ n₁ d₁ = buildSlip o₂ items₂ k₂ i₂ n₂ d₂ := by
  subst ho hi hk hidx hn hd; rfl

/-- C9 witness: two builds from the same concrete inputs agree. -/
theorem buildSlip_deterministic_witness :
    buildSlip sampleOrder sampleItems (some 1) 1 2 true =
      buildSlip sampleOrder sampleItems (some 1) 1 2 true :=
  buildSlip_deterministic sampleOrder sampleOrder sampleItems sampleItems
    (some 1) (some 1) 1 1 2 2 true true rfl rfl rfl rfl rfl rfl

theorem toFixed2_of_floor (q : ℚ) (m : Nat) (hq : ¬ q < 0)
    (hm : (⌊q * 100 + 1 / 2⌋ : ℤ) = (m : ℤ)) :
    toFixed2 q = toString (m / 100) ++ "." ++ padZero2 (toString (m % 100)) := by
  rw [toFixed2, if_neg hq, hm]
  simp

theorem orderSubtotal_eq_sum (items : List Item) :
    orderSubtotal items = (items.map fun i => i.item_price * (i.quantity : ℚ)).sum := by
  have aux : ∀ (l : List Item) (a : ℚ),
      l.foldl (fun sum i => sum + i.item_price * (i.quantity : ℚ)) a =
        a + (l.map fun i => i.item_price * (i.quantity : ℚ)).sum := by
    intro l
    induction l with
    | nil => intro a; simp
    | cons x xs ih => intro a; simp [ih, add_assoc]
  simpa using aux items 0

/-- C7 (totals arithmetic): on every slip the full-order totals block is
subtotal = sum over all items of unit price times quantity, service
charge = 2 percent of that subtotal, grand total = subtotal plus service
charge; for the items (120.00 x 2) and (15.00 x 3) the two-decimal
renderings are 285.00, 5.70 and 290.70. -/
theorem totals_arithmetic :
    (∀ items : List Item,
      orderSubtotal items = (items.map fun i => i.item_price * (i.quantity : ℚ)).sum ∧
      serviceCharge items = orderSubtotal items * (2 / 100) ∧
      grandTotal items = orderSubtotal items + serviceCharge items) ∧
    toFixed2 (orderSubtotal sampleItems) = "285.00" ∧
    toFixed2 (serviceCharge sampleItems) = "5.70" ∧
    toFixed2 (grandTotal sampleItems) = "290.70" := by
  have h285 : orderSubtotal sampleItems = 285 := by
    norm_num [orderSubtotal, sampleItems]
  have hsc : serviceCharge sampleItems = 57 / 10 := by
    rw [serviceCharge, h285]; norm_num
  have hgt : grandTotal sampleItems = 2907 / 10 := by
    rw [grandTotal, hsc, h285]; norm_num
  refine ⟨fun items => ⟨orderSubtotal_eq_sum items, rfl, rfl⟩, ?_, ?_, ?_⟩
  · rw [h285, toFixed2_of_floor 285 28500 (by norm_num)
      (by rw [Int.floor_eq_iff]; norm_num)]
    decide
  · rw [hsc, toFixed2_of_floor (57 / 10) 570 (by norm_num)
      (by rw [Int.floor_eq_iff]; norm_num)]
    decide
  · rw [hgt, toFixed2_of_floor (2907 / 10) 29070 (by norm_num)
      (by rw [Int.floor_eq_iff]; norm_num)]
    decide

/-- C8 (cash-drawer pulse): the drawer-pulse byte sequence is a suffix of
the encoded slip iff the drawer flag is set, whatever the other inputs;
when set, the output is exactly the flag-off output with the pulse
appended, and the flag-off output ends with the cut directive (so the
pulse comes after the cut); and the flag `printOrder` passes for the slip
with index i holds iff the cash-drawer feature is enabled, the payment
method is cash, and i = 1. -/
theorem cashDrawer_pulse (order : Order) (items : List Item) (k : Key)
    (i n : Nat) (cfg : Bool) (pay : String) :
    buildSlip order items k i n true =
      buildSlip order items k i n false ++ CMD_CASH_DRAWER ∧
    List.IsSuffix CMD_CUT_PARTIAL (buildSlip order items k i n false) ∧
    (∀ d, List.IsSuffix CMD_CASH_DRAWER (buildSlip order items k i n d) ↔ d = true) ∧
    (openDrawerFlag cfg pay i = true ↔ cfg = true ∧ pay = "cash" ∧ i = 1) := by
  have hfalse : buildSlip order items k i n false =
      buildSlipBody order items k i n ++ CMD_CUT_PARTIAL := by
    simp [buildSlip]
  have htrue : buildSlip order items k i n true =
      buildSlip order items k i n false ++ CMD_CASH_DRAWER := by
    rw [hfalse]
    simp [buildSlip, List.append_assoc]
  refine ⟨htrue, ?_, ?_, ?_⟩
  · rw [hfalse]
    exact ⟨buildSlipBody order items k i n, rfl⟩
  · intro d
    cases d with
    | true => exact iff_of_true ⟨buildSlip order items k i n false, htrue.symm⟩ rfl
    | false =>
      refine iff_of_false ?_ (by simp)
      intro hsuf
      obtain ⟨t, ht⟩ := hsuf
      rw [hfalse] at ht
      have hlast := congrArg List.getLast? ht
      rw [List.getLast?_append, List.getLast?_append] at hlast
      simp [CMD_CASH_DRAWER, CMD_CUT_PARTIAL] at hlast
  · simp [openDrawerFlag, and_assoc]

end PrinterServer
